import Mathlib

/-!
Verification development for the fluxx-backend user/session core.

The JavaScript source is shallowly embedded:
* Redis hashes and JS objects become association lists of strings (`FieldMap`);
  the flat Redis keyspace is split per key family (`user:<role>:<id>` records,
  the `user:idByEmail` / `user:roleById` / `user:idByToken` index hashes, the
  `user:refreshToken` hash, `user:passwordToken:<token>` string keys, the
  `user:archived:<email>` hashes and the `user:archived` sorted set) into the
  typed fields of `Store`.
* Cryptographic primitives (HMAC-SHA256, scrypt) and the JWT codec are opaque
  function parameters (`Crypto`, `JwtApi`): the code only composes them.
* Randomness (salts, UUIDs, tokens) is passed in explicitly as the fresh values
  the corresponding `randomBytes`/`randomUUID` calls would produce.
* JavaScript truthiness and `null`/`undefined` string coercions are modelled by
  `jsTruthy`, `jsNullStr` and `jsUndefStr`.
* `JSON.stringify`/`JSON.parse` of refresh-token records is modelled by storing
  the record itself (the coding is inverse and the value is otherwise opaque).
-/

namespace Fluxx

/-! ### Association lists: Redis hashes and JS objects -/

/-- Lookup in an association list (first binding wins; `alSet` keeps keys unique). -/
def alGet {α : Type} : List (String × α) → String → Option α
  | [], _ => none
  | (k, v) :: rest, key => if key = k then some v else alGet rest key

/-- Set a binding, replacing an existing one (Redis `hset key field value`). -/
def alSet {α : Type} : List (String × α) → String → α → List (String × α)
  | [], key, v => [(key, v)]
  | (k, w) :: rest, key, v =>
      if key = k then (k, v) :: rest else (k, w) :: alSet rest key v

/-- Delete a binding (Redis `hdel key field` / `del key`). -/
def alDel {α : Type} : List (String × α) → String → List (String × α)
  | [], _ => []
  | (k, w) :: rest, key => if key = k then alDel rest key else (k, w) :: alDel rest key

theorem alGet_alSet {α : Type} (m : List (String × α)) (k : String) (v : α) (k' : String) :
    alGet (alSet m k v) k' = if k' = k then some v else alGet m k' := by
  induction m with
  | nil => simp [alGet, alSet]
  | cons hd tl ih =>
      obtain ⟨k0, v0⟩ := hd
      by_cases h0 : k = k0
      · subst h0
        by_cases h1 : k' = k <;> simp [alGet, alSet, h1]
      · by_cases h1 : k' = k0
        · subst h1
          simp [alGet, alSet, h0, Ne.symm h0]
        · simp [alGet, alSet, h0, h1, ih]

theorem alGet_alDel {α : Type} (m : List (String × α)) (k k' : String) :
    alGet (alDel m k) k' = if k' = k then none else alGet m k' := by
  induction m with
  | nil => simp [alGet, alDel]
  | cons hd tl ih =>
      obtain ⟨k0, v0⟩ := hd
      by_cases h0 : k = k0
      · subst h0
        by_cases h1 : k' = k
        · subst h1
          simp [alGet, alDel, ih]
        · simp [alGet, alDel, h1, ih]
      · by_cases h1 : k' = k0
        · subst h1
          simp [alGet, alDel, h0, Ne.symm h0, ih]
        · simp [alGet, alDel, h0, h1, ih]

theorem alSet_ne_nil {α : Type} (m : List (String × α)) (k : String) (v : α) :
    alSet m k v ≠ [] := by
  cases m with
  | nil => simp [alSet]
  | cons hd tl =>
      obtain ⟨k0, v0⟩ := hd
      by_cases h : k = k0 <;> simp [alSet, h]

/-- A JS object / Redis hash value: field name to string value. -/
abbrev FieldMap := List (String × String)

/-- Redis `hset key object`: every field of the object is set into the hash. -/
def fmMerge (m patch : FieldMap) : FieldMap :=
  patch.foldl (fun acc kv => alSet acc kv.1 kv.2) m

theorem fmMerge_nil (m : FieldMap) : fmMerge m [] = m := rfl

theorem fmMerge_cons (m : FieldMap) (k v : String) (p : FieldMap) :
    fmMerge m ((k, v) :: p) = fmMerge (alSet m k v) p := rfl

theorem fmMerge_ne_nil (m : FieldMap) (k : String) (v : String) (p : FieldMap) :
    fmMerge m ((k, v) :: p) ≠ [] := by
  induction p generalizing m k v with
  | nil => simpa [fmMerge] using alSet_ne_nil m k v
  | cons hd tl ih =>
      obtain ⟨k1, v1⟩ := hd
      rw [fmMerge_cons, fmMerge_cons]
      exact ih (alSet m k v) k1 v1

theorem alGet_eq_none_of_not_mem {α : Type} {p : List (String × α)} {k : String}
    (h : k ∉ p.map Prod.fst) : alGet p k = none := by
  induction p with
  | nil => rfl
  | cons hd tl ih =>
      obtain ⟨k0, v0⟩ := hd
      simp only [List.map_cons, List.mem_cons, not_or] at h
      obtain ⟨h1, h2⟩ := h
      simp only [alGet]
      rw [if_neg h1]
      exact ih h2

theorem alGet_fmMerge_of_none {p : FieldMap} {k : String} (m : FieldMap)
    (h : alGet p k = none) : alGet (fmMerge m p) k = alGet m k := by
  induction p generalizing m with
  | nil => rfl
  | cons hd tl ih =>
      obtain ⟨k0, v0⟩ := hd
      simp only [alGet] at h
      by_cases hk : k = k0
      · simp [hk] at h
      · simp only [hk, if_false] at h
        rw [fmMerge_cons, ih _ h, alGet_alSet, if_neg hk]

/-- When the patch's field names are unique (as those of a Redis hash are),
every field present in the patch reads back from the merge. -/
theorem alGet_fmMerge_of_some {p : FieldMap} {k : String} {v : String} (m : FieldMap)
    (hnd : (p.map Prod.fst).Nodup) (h : alGet p k = some v) :
    alGet (fmMerge m p) k = some v := by
  induction p generalizing m with
  | nil => cases h
  | cons hd tl ih =>
      obtain ⟨k0, v0⟩ := hd
      simp only [List.map_cons, List.nodup_cons] at hnd
      obtain ⟨hk0, hndtl⟩ := hnd
      simp only [alGet] at h
      rw [fmMerge_cons]
      by_cases hk : k = k0
      · subst hk
        simp only [if_pos rfl] at h
        have htl : alGet tl k = none := alGet_eq_none_of_not_mem hk0
        rw [alGet_fmMerge_of_none _ htl, alGet_alSet, if_pos rfl]
        exact h
      · simp only [hk, if_false] at h
        exact ih _ hndtl h

/-! ### JavaScript semantics helpers -/

/-- JS truthiness of a possibly-absent string (`undefined`, `null` and `""` are falsy). -/
def jsTruthy : Option String → Bool
  | none => false
  | some s => s ≠ ""

/-- Template-literal / argument coercion of a Redis `hget` result: `null` prints `"null"`. -/
def jsNullStr (o : Option String) : String := o.getD "null"

/-- Template-literal coercion of a missing JS object field: `undefined` prints `"undefined"`. -/
def jsUndefStr (o : Option String) : String := o.getD "undefined"

/-- `String.prototype.toLowerCase()` (ASCII model, kernel-executable). -/
def jsToLower (s : String) : String := String.mk (s.data.map Char.toLower)

/-- `x || d` for a possibly-absent number (`0` is falsy). -/
def jsOrNat (o : Option Nat) (d : Nat) : Nat :=
  match o with
  | none => d
  | some n => if n = 0 then d else n

/-- `x || d` for a possibly-absent boolean (`false` is falsy). -/
def jsOrBool (o : Option Bool) (d : Bool) : Bool :=
  match o with
  | none => d
  | some b => if b then b else d

theorem jsOrBool_true (o : Option Bool) : jsOrBool o true = true := by
  cases o with
  | none => rfl
  | some b => cases b <;> rfl

/-! ### Credential hasher (`src/helpers/secure.js`) -/

/-- Opaque cryptographic primitives used by `createPasswordHash`:
`hmacSha256 key msg` is the hex HMAC-SHA256 digest of `msg` keyed by `key`;
`scryptHex pass salt keylen` is the hex encoding of the `keylen`-byte scrypt
derivation of `pass` with `salt` (`scryptSync(pass, salt, keylen).toString('hex')`). -/
structure Crypto where
  hmacSha256 : String → String → String
  scryptHex : String → String → Nat → String

/-- The `{hash, salt}` object returned by `createPasswordHash`. -/
structure HashSalt where
  hash : String
  salt : String
deriving Repr, DecidableEq

/-- `secure.createPasswordHash(password, salt)`. `salt?` is the optional argument;
`freshSalt` is the value `randomBytes(128).toString('base64')` would produce when
the argument is absent or falsy (`salt || randomBytes(...)`). -/
def createPasswordHash (c : Crypto) (password : String) (salt? : Option String)
    (freshSalt : String) : HashSalt :=
  let generatedSalt := if jsTruthy salt? then salt?.getD "" else freshSalt
  let hmacDigest := c.hmacSha256 generatedSalt password
  let scrypt := c.scryptHex hmacDigest generatedSalt 64
  { hash := scrypt, salt := generatedSalt }

/-! ### Password generator (`secure.createPassword`) -/

/-- The `opts` argument of `createPassword`; absent fields are `none`. -/
structure PwOpts where
  length : Option Nat := none
  lower : Option Bool := none
  upper : Option Bool := none
  number : Option Bool := none
  symbol : Option Bool := none
deriving Repr

/-- `opts.length || 8`. -/
def pwLength (opts : PwOpts) : Nat := jsOrNat opts.length 8

/-- `opts.lower || true` (and likewise `upper`, `number`): always `true`. -/
def pwLower (opts : PwOpts) : Bool := jsOrBool opts.lower true

def pwUpper (opts : PwOpts) : Bool := jsOrBool opts.upper true

def pwNumber (opts : PwOpts) : Bool := jsOrBool opts.number true

/-- `opts.symbol || false`. -/
def pwSymbol (opts : PwOpts) : Bool := jsOrBool opts.symbol false

/-- `lower + upper + number + symbol` (JS coerces booleans to 0/1). -/
def pwTypesCount (opts : PwOpts) : Nat :=
  (pwLower opts).toNat + (pwUpper opts).toNat + (pwNumber opts).toNat + (pwSymbol opts).toNat

/-- `[{lower},{upper},{number},{symbol}].filter(...)` reduced to the enabled class names. -/
def pwTypesArr (opts : PwOpts) : List String :=
  (if pwLower opts then ["lower"] else []) ++ (if pwUpper opts then ["upper"] else []) ++
  (if pwNumber opts then ["number"] else []) ++ (if pwSymbol opts then ["symbol"] else [])

/-- `secure.createPassword(opts)`. `randc i t` is the character the class-`t`
generator (`getRandomLower` …) returns during iteration `i`; `shuffle` is the
permutation the random-comparator `Array.prototype.sort` applies at the end. -/
def createPassword (randc : Nat → String → Char) (shuffle : List Char → List Char)
    (opts : PwOpts) : String :=
  let length := pwLength opts
  let typesArr := pwTypesArr opts
  if pwTypesCount opts = 0 then ""
  else
    let generated := (List.range length).foldl
      (fun acc i => acc ++ typesArr.map (fun t => randc i t)) []
    String.mk (shuffle (generated.take length))

/-! ### The key-value store (`§4.2` key layout over Redis) -/

/-- A refresh-token record, the `JSON.parse` of a `user:refreshToken` hash value. -/
structure RToken where
  userId : String
  expiresOn : Int
deriving Repr, DecidableEq

/-- The Redis keyspace, split by key family. `records` and `archived` are keyed
by the full key string (`user:<role>:<id>`, `user:archived:<email>`);
`passwordTokens` is keyed by the full `user:passwordToken:<token>` key;
`archivedZ` is the `user:archived` sorted set (member, score). -/
structure Store where
  records : List (String × FieldMap) := []
  idByEmail : FieldMap := []
  roleById : FieldMap := []
  idByToken : FieldMap := []
  refreshTokens : List (String × RToken) := []
  passwordTokens : List (String × String) := []
  archived : List (String × FieldMap) := []
  archivedZ : List (String × Int) := []
deriving Repr, DecidableEq

/-- `hgetall key` for a record key: missing key reads as the empty hash. -/
def Store.getRecord (st : Store) (key : String) : FieldMap :=
  (alGet st.records key).getD []

/-- `hset key object` on a record key (fields merge into the existing hash). -/
def Store.hsetRecord (st : Store) (key : String) (patch : FieldMap) : Store :=
  { st with records := alSet st.records key (fmMerge (st.getRecord key) patch) }

/-- `del key` on a record key. -/
def Store.delRecord (st : Store) (key : String) : Store :=
  { st with records := alDel st.records key }

/-- `zadd('user:archived', 'NX', score, member)`: adds only when absent. -/
def Store.zaddNX (st : Store) (score : Int) (member : String) : Store :=
  match alGet st.archivedZ member with
  | some _ => st
  | none => { st with archivedZ := alSet st.archivedZ member score }

/-- The full key of a user record: `user:${role}:${id}`. -/
def userKey (role id : String) : String := "user:" ++ role ++ ":" ++ id

/-! ### Domain errors (`src/errors/user.js`) and JWT (`@fastify/jwt`) -/

/-- The status-tagged domain errors raised through `this.errors.user.*`, plus
`jwtVerifyFailed` for the exception `jwt.verify` itself throws on a bad or
expired token, and `typeError` for a JS `TypeError` (property access on
`undefined`). -/
inductive UserErr
  | userAlreadyExists
  | userDoesNotExist
  | userStillExists
  | missingPasswordToken
  | authMethodNotRecognized
  | missingAccessToken
  | invalidToken
  | expiredToken
  | missingRefreshToken
  | badCredentials
  | jwtVerifyFailed
  | typeError
deriving Repr, DecidableEq

/-- The claims payload `generateToken` signs: `{firstname, lastname, id,
xsrfToken, refreshToken}` plus the `sub` option. -/
structure AccessClaims where
  firstname : String
  lastname : String
  id : String
  xsrfToken : String
  refreshToken : String
  sub : String
deriving Repr, DecidableEq

/-- The JWT codec, opaque: `sign` serialises claims, `verify` returns the decoded
claims of a token whose signature and expiry check out, and `none` when the
verification throws. -/
structure JwtApi where
  sign : AccessClaims → String
  verify : String → Option AccessClaims

/-! ### User directory service (`src/models/user.js`) -/

/-- `helpers/user.formatRead` re-parses `createdOn`/`updatedOn`/`numOfAttempts`
with `parseInt`. On records whose numeric fields hold canonical integer
numerals (all records this code writes), re-stringifying the parsed numbers is
the identity, and no operation inspects the parsed numbers, so the model keeps
the string field map unchanged. -/
def formatRead (u : FieldMap) : FieldMap := u

/-- `helpers/user.isRoleExist` is `[1, 2].includes(role)`. The role is a string
(route schema `role: {type: 'string'}`, data model §3), and JS `includes` uses
strict equality, under which a string never equals the numbers 1 or 2, so the
check is false on every role this application handles. -/
def isRoleExist (_role : String) : Bool := false

/-- The single lookup key of `user.get` / `user.del` (`{id|email|token|accessToken}`). -/
inductive GetOpts
  | byId (id : String)
  | byEmail (email : String)
  | byToken (token : String)
  | byAccessToken (accessToken : String)
deriving Repr, DecidableEq

namespace User

/-- The `id`-branch of `user.get`: role from `user:roleById` (a missing entry is
`null`, which the template literal prints as `"null"`), then
`hgetall('user:' + role + ':' + id)`; an empty result fails with
`UserDoesNotExist`. -/
def getById (st : Store) (id : String) : Except UserErr FieldMap :=
  let role := alGet st.roleById id
  let user := st.getRecord (userKey (jsNullStr role) id)
  if user.isEmpty then .error .userDoesNotExist else .ok (formatRead user)

/-- The `email`-branch of `user.get`: id from `user:idByEmail`, then as by id.
When the email has no index entry the resolved id is `null` and the record
lookup comes back empty either way, so the branch fails. -/
def getByEmail (st : Store) (email : String) : Except UserErr FieldMap :=
  match alGet st.idByEmail email with
  | none => .error .userDoesNotExist
  | some userId => getById st userId

/-- The `token`-branch of `user.get`: id from `user:idByToken`, then as by id. -/
def getByToken (st : Store) (token : String) : Except UserErr FieldMap :=
  match alGet st.idByToken token with
  | none => .error .userDoesNotExist
  | some userId => getById st userId

/-- The `accessToken`-branch of `user.get`: `jwt.verify`, then by the decoded
token's `sub` claim. -/
def getByAccessToken (jwt : JwtApi) (st : Store) (accessToken : String) :
    Except UserErr FieldMap :=
  match jwt.verify accessToken with
  | none => .error .jwtVerifyFailed
  | some decoded => getById st decoded.sub

/-- `user.get(opts)`. -/
def get (jwt : JwtApi) (st : Store) (opts : GetOpts) : Except UserErr FieldMap :=
  match opts with
  | .byId id => getById st id
  | .byEmail email => getByEmail st email
  | .byToken token => getByToken st token
  | .byAccessToken tok => getByAccessToken jwt st tok

/-- The result of `user.authenticate`: `{user, authorized: true}`,
`{authorized: false}` (no user field), or `{error, authorized: false}` from the
catch block. -/
inductive AuthResult
  | authorized (user : FieldMap)
  | denied
  | deniedError (e : UserErr)
deriving Repr, DecidableEq

/-- The password check shared by both branches of `authenticate`: skipped when
the lookup returned `{error}` or an empty object, otherwise the recomputed hash
is compared (`===`) with `user.hPassword`. `freshSalt` feeds
`createPasswordHash` in case the record's salt is absent or empty. -/
def authCheck (c : Crypto) (freshSalt password : String)
    (res : Except UserErr FieldMap) : AuthResult :=
  match res with
  | .error _ => .denied
  | .ok user =>
      if user.isEmpty then .denied
      else
        let hs := createPasswordHash c password (alGet user "salt") freshSalt
        if alGet user "hPassword" = some hs.hash then .authorized user else .denied

/-- `user.authenticate(id, password, authType)`: `emailAuth` looks up by email,
`streamLineAuth` by url-token, anything else throws
`Error('Auth method not recognized.')` which the catch returns as
`{error, authorized: false}`. -/
def authenticate (c : Crypto) (st : Store) (freshSalt : String)
    (id password : String) (authType : String) : AuthResult :=
  if authType = "emailAuth" then authCheck c freshSalt password (getByEmail st id)
  else if authType = "streamLineAuth" then authCheck c freshSalt password (getByToken st id)
  else .deniedError .authMethodNotRecognized

/-- The `{firstname, lastname, email, role}` object the controller passes to `user.new`. -/
structure NewUser where
  firstname : String
  lastname : String
  email : String
  role : String
deriving Repr, DecidableEq

/-- The fresh random values `user.new` draws: `createUUID()`, `createSalt()`,
`createUrlToken()`. -/
structure NewFresh where
  id : String
  salt : String
  urlToken : String
deriving Repr, DecidableEq

/-- The `{userAdded: true, id}` result of `user.new`. -/
structure NewResult where
  userAdded : Bool
  id : String
deriving Repr, DecidableEq

/-- `user.new(user, password)`: duplicate check on the raw email against
`user:idByEmail` (a falsy hit passes), then assignment of id, salt, hashed
password, `createdOn` and url-token, lowercasing of the email, and the batch of
four writes. The catch turns the `UserAlreadyExists` throw into `{error}`. -/
def new (c : Crypto) (now : Int) (fresh : NewFresh) (u : NewUser) (password : String)
    (st : Store) : Except UserErr NewResult × Store :=
  if jsTruthy (alGet st.idByEmail u.email) then (.error .userAlreadyExists, st)
  else
    let hPassword := (createPasswordHash c password (some fresh.salt) fresh.salt).hash
    let email := (jsToLower u.email)
    let record : FieldMap :=
      [("firstname", u.firstname), ("lastname", u.lastname), ("email", email),
       ("role", u.role), ("id", fresh.id), ("salt", fresh.salt),
       ("hPassword", hPassword), ("createdOn", toString now), ("token", fresh.urlToken)]
    let st := st.hsetRecord (userKey u.role fresh.id) record
    let st := { st with idByEmail := alSet st.idByEmail email fresh.id }
    let st := { st with roleById := alSet st.roleById fresh.id u.role }
    let st := { st with idByToken := alSet st.idByToken fresh.urlToken fresh.id }
    (.ok { userAdded := true, id := fresh.id }, st)

/-- The argument object of `user.update`; absent fields are `none`. -/
structure UpdateParams where
  id : String
  email : Option String := none
  password : Option String := none
  role : Option String := none
  firstname : Option String := none
  lastname : Option String := none
deriving Repr, DecidableEq

/-- One optional field of the `userParams` object written by the final `hset`. -/
def optField (k : String) : Option String → FieldMap
  | none => []
  | some v => [(k, v)]

/-- The duplicate-email guard of `user.update`: inside `if (userParams.email)`,
fetch by the new email and throw `userStillExists` when a user with exactly
that email and a different id comes back. On a failed fetch `userTest` is the
`{error}` object, whose `email`/`id` fields are `undefined` and never match. -/
def emailStillExists (st : Store) (p : UpdateParams) : Bool :=
  match p.email with
  | none => false
  | some e =>
      if e = "" then false
      else
        match getByEmail st e with
        | .error _ => false
        | .ok t => decide (alGet t "email" = some e) && decide (alGet t "id" ≠ some p.id)

/-- The `{userUpdated: true, id}` result of `user.update`. -/
structure UpdResult where
  userUpdated : Bool
  id : String
deriving Repr, DecidableEq

/-- `user.update(userParams)`. `isEmailOk` is the (opaque) email regex of
`helpers/user.isEmailOk`; `freshSalt` feeds `createPasswordHash` in case the
stored salt is absent or empty. Faithful quirks: the email branch adds the new
index entry before deleting the one for `user.email`; the role branch is dead
(`isRoleExist` is constantly false on strings) and would delete the
old-role key; the final `hset` merges the params into the key built from
`user.role` — the OLD role — and `userParams.id`. -/
def update (c : Crypto) (isEmailOk : String → Bool) (now : Int) (freshSalt : String)
    (p : UpdateParams) (st : Store) : Except UserErr UpdResult × Store :=
  if emailStillExists st p then (.error .userStillExists, st)
  else
    match getById st p.id with
    | .error e => (.error e, st)
    | .ok user =>
        let pwTruthy := jsTruthy p.password
        let hPw : Option String :=
          if pwTruthy then
            some (createPasswordHash c (p.password.getD "") (alGet user "salt") freshSalt).hash
          else none
        let passwordLeft : Option String := if pwTruthy then none else p.password
        let emailBranch :=
          jsTruthy p.email && isEmailOk (p.email.getD "") &&
          (match alGet user "email" with
           | some e0 => decide (p.email.getD "" ≠ e0)
           | none => true)
        let newEmail := jsToLower (p.email.getD "")
        let st :=
          if emailBranch then
            let st := { st with
              idByEmail := alSet st.idByEmail newEmail (jsUndefStr (alGet user "id")) }
            { st with idByEmail := alDel st.idByEmail (jsUndefStr (alGet user "email")) }
          else st
        let emailFinal : Option String := if emailBranch then some newEmail else p.email
        let roleBranch :=
          jsTruthy p.role &&
          (match alGet user "role" with
           | some r0 => decide (p.role.getD "" ≠ r0)
           | none => true) &&
          isRoleExist (p.role.getD "")
        let st :=
          if roleBranch then
            let st := { st with roleById := alSet st.roleById p.id (p.role.getD "") }
            st.delRecord (userKey (jsUndefStr (alGet user "role")) (jsUndefStr (alGet user "id")))
          else st
        let patch : FieldMap :=
          [("id", p.id)] ++ optField "email" emailFinal ++ optField "password" passwordLeft ++
          optField "role" p.role ++ optField "firstname" p.firstname ++
          optField "lastname" p.lastname ++ [("updatedOn", toString now)] ++
          optField "hPassword" hPw
        let st := st.hsetRecord (userKey (jsUndefStr (alGet user "role")) p.id) patch
        (.ok { userUpdated := true, id := jsUndefStr (alGet user "id") }, st)

/-- The `{userDeleted: true, id}` result of `user.del`. -/
structure DelResult where
  userDeleted : Bool
  id : String
deriving Repr, DecidableEq

/-- `user.del(opts)`: resolve the user, then the batch — copy the record into
`user:archived:<email>`, `zadd('user:archived', 'NX', Date.now(), email)`,
delete the live record and the three index entries. -/
def del (jwt : JwtApi) (now : Int) (st : Store) (opts : GetOpts) :
    Except UserErr DelResult × Store :=
  match get jwt st opts with
  | .error e => (.error e, st)
  | .ok user =>
      let email := jsUndefStr (alGet user "email")
      let uid := jsUndefStr (alGet user "id")
      let st := { st with
        archived := alSet st.archived email (fmMerge ((alGet st.archived email).getD []) user) }
      let st := st.zaddNX now email
      let st := st.delRecord (userKey (jsUndefStr (alGet user "role")) uid)
      let st := { st with idByEmail := alDel st.idByEmail email }
      let st := { st with roleById := alDel st.roleById uid }
      let st := { st with idByToken := alDel st.idByToken (jsUndefStr (alGet user "token")) }
      (.ok { userDeleted := true, id := uid }, st)

/-- The full Redis key of a password-reset token: `user:passwordToken:${token}`. -/
def passwordTokenKey (token : String) : String := "user:passwordToken:" ++ token

/-- `user.sendAskResetPassword(email)`: resolve the user, mint `token`
(`createUrlToken()`, passed in as the fresh random value), store
`user:passwordToken:<token> = user.id`. The `expire` TTL and the mail dispatch
to the mailer collaborator are outside the store model. -/
def sendAskResetPassword (st : Store) (email : String) (token : String) :
    Except UserErr Unit × Store :=
  match getByEmail st email with
  | .error e => (.error e, st)
  | .ok user =>
      let st := { st with
        passwordTokens := alSet st.passwordTokens (passwordTokenKey token)
          (jsUndefStr (alGet user "id")) }
      (.ok (), st)

/-- `user.resetPassword(token, password)`: resolve the id from the reset-token
key (`if (!id)` fails with `MissingPasswordToken`), fetch the user, then
delegate to `update` with `{id, password}`. -/
def resetPassword (c : Crypto) (isEmailOk : String → Bool) (now : Int) (freshSalt : String)
    (st : Store) (token password : String) : Except UserErr UpdResult × Store :=
  let id? := alGet st.passwordTokens (passwordTokenKey token)
  if ¬ jsTruthy id? then (.error .missingPasswordToken, st)
  else
    match getById st (id?.getD "") with
    | .error e => (.error e, st)
    | .ok _ =>
        update c isEmailOk now freshSalt { id := id?.getD "", password := some password } st

/-- `config.token.refreshToken` (from env `REFRESH_TOKEN_EXPIRES_IN`, in ms). -/
structure TokenCfg where
  refreshExpiresIn : Int
deriving Repr, DecidableEq

/-- The `{accessToken, refreshToken, xsrfToken}` result of `user.generateToken`. -/
structure Tokens where
  accessToken : String
  refreshToken : String
  xsrfToken : String
deriving Repr, DecidableEq

/-- The claims payload `generateToken` signs; both the `id` claim and the `sub`
option are `user.id`. -/
def mkAccessClaims (user : FieldMap) (xsrfToken refreshToken : String) : AccessClaims :=
  { firstname := jsUndefStr (alGet user "firstname"),
    lastname := jsUndefStr (alGet user "lastname"),
    id := jsUndefStr (alGet user "id"),
    xsrfToken := xsrfToken,
    refreshToken := refreshToken,
    sub := jsUndefStr (alGet user "id") }

/-- `user.generateToken(user)`: sign the access token and persist
`user:refreshToken[refreshToken] = JSON{userId, expiresOn = now + TTL}`.
`xsrfFresh`/`refreshFresh` are the values `createXsrfToken()` /
`createRefreshToken()` draw. -/
def generateToken (jwt : JwtApi) (cfg : TokenCfg) (now : Int)
    (xsrfFresh refreshFresh : String) (user : FieldMap) (st : Store) : Tokens × Store :=
  let accessToken := jwt.sign (mkAccessClaims user xsrfFresh refreshFresh)
  let newRec : RToken :=
    { userId := jsUndefStr (alGet user "id"), expiresOn := now + cfg.refreshExpiresIn }
  let st := { st with refreshTokens := alSet st.refreshTokens refreshFresh newRec }
  ({ accessToken := accessToken, refreshToken := refreshFresh, xsrfToken := xsrfFresh }, st)

end User

/-! ### HTTP shapes -/

/-- The request cookies; an empty-string cookie is falsy like a missing one. -/
structure Cookies where
  access_token : Option String := none
  refresh_token : Option String := none
deriving Repr, DecidableEq

/-- The request headers `verifyJWT` reads. -/
structure Headers where
  upgrade : Option String := none
  secWebsocketProtocol : Option String := none
  xSrfToken : Option String := none
deriving Repr, DecidableEq

/-- The request as `verifyJWT` destructures it. -/
structure Req where
  cookies : Option Cookies := none
  headers : Option Headers := none
deriving Repr, DecidableEq

namespace Secure

/-- XSRF-token extraction in `verifyJWT`: for a websocket upgrade the first
comma-separated entry of `sec-websocket-protocol`, otherwise the `x-srf-token`
header; either missing fails with `MissingAccessToken` (accessing `.upgrade` on
absent headers would throw a `TypeError`). -/
def xsrfFromHeaders (headers? : Option Headers) : Except UserErr String :=
  match headers? with
  | none => .error .typeError
  | some h =>
      if h.upgrade = some "websocket" then
        if ¬ jsTruthy h.secWebsocketProtocol then .error .missingAccessToken
        else .ok ((h.secWebsocketProtocol.getD "").takeWhile (fun ch => ch ≠ ','))
      else
        if ¬ jsTruthy h.xSrfToken then .error .missingAccessToken
        else .ok (h.xSrfToken.getD "")

/-- The try-block of `middlewares/secure.verifyJWT`: missing access-token cookie
or missing XSRF token fail with `MissingAccessToken`; a decoded token whose
embedded `xsrfToken` claim differs from the supplied one fails with
`InvalidToken`; a token whose `id` claim resolves to no user fails with
`BadCredentials`. -/
def verifyJWT (jwt : JwtApi) (st : Store) (req : Req) : Except UserErr Unit :=
  if ¬ jsTruthy (req.cookies.bind Cookies.access_token) then .error .missingAccessToken
  else
    let accessToken := (req.cookies.bind Cookies.access_token).getD ""
    match xsrfFromHeaders req.headers with
    | .error e => .error e
    | .ok xsrfToken =>
        match jwt.verify accessToken with
        | none => .error .jwtVerifyFailed
        | some decoded =>
            if xsrfToken ≠ decoded.xsrfToken then .error .invalidToken
            else
              match User.getById st decoded.id with
              | .error _ => .error .badCredentials
              | .ok user => if user.isEmpty then .error .badCredentials else .ok ()

/-- The catch-block of `verifyJWT`: every thrown error is answered with
`res.code(401).send(err)` and not propagated; success sends nothing. -/
def verifyJWTResponse (jwt : JwtApi) (st : Store) (req : Req) : Option (Nat × UserErr) :=
  match verifyJWT jwt st req with
  | .ok _ => none
  | .error e => some (401, e)

end Secure

namespace Controllers

/-- `controllers/user.refreshToken`: read the `refresh_token` cookie (missing →
`MissingRefreshToken`), look its record up in `user:refreshToken` (missing →
`InvalidToken`), reject a past `expiresOn` (`ExpiredToken`), resolve the user,
regenerate the tokens via `generateToken`, then delete the old record. -/
def refreshToken (jwt : JwtApi) (cfg : User.TokenCfg) (now : Int)
    (xsrfFresh refreshFresh : String) (cookies? : Option Cookies) (st : Store) :
    Except UserErr User.Tokens × Store :=
  if ¬ jsTruthy (cookies?.bind Cookies.refresh_token) then (.error .missingRefreshToken, st)
  else
    let rt := (cookies?.bind Cookies.refresh_token).getD ""
    match alGet st.refreshTokens rt with
    | none => (.error .invalidToken, st)
    | some oldRec =>
        if oldRec.expiresOn < now then (.error .expiredToken, st)
        else
          match User.getById st oldRec.userId with
          | .error e => (.error e, st)
          | .ok user =>
              let p := User.generateToken jwt cfg now xsrfFresh refreshFresh user st
              let st := { p.2 with refreshTokens := alDel p.2.refreshTokens rt }
              (.ok p.1, st)

end Controllers

/-! ### Helper lemmas about the lookups -/

theorem getById_ok_of (st : Store) (id role : String) (rec : FieldMap)
    (hrole : alGet st.roleById id = some role)
    (hrec : alGet st.records (userKey role id) = some rec) (hne : rec ≠ []) :
    User.getById st id = .ok rec := by
  unfold User.getById Store.getRecord
  rw [hrole]
  simp only [jsNullStr, Option.getD_some]
  rw [hrec]
  simp [formatRead, List.isEmpty_iff, hne]

theorem getById_ok_ne_nil {st : Store} {id : String} {u : FieldMap}
    (h : User.getById st id = .ok u) : u.isEmpty = false := by
  unfold User.getById at h
  by_cases he : (st.getRecord (userKey (jsNullStr (alGet st.roleById id)) id)).isEmpty
  · simp [he] at h
  · rw [Bool.not_eq_true] at he
    simp only [he, Bool.false_eq_true, if_false, Except.ok.injEq] at h
    rw [← h]
    simpa [formatRead] using he

theorem getByEmail_ok_ne_nil {st : Store} {email : String} {u : FieldMap}
    (h : User.getByEmail st email = .ok u) : u.isEmpty = false := by
  unfold User.getByEmail at h
  cases hidx : alGet st.idByEmail email with
  | none => rw [hidx] at h; cases h
  | some userId => rw [hidx] at h; exact getById_ok_ne_nil h

theorem getByToken_ok_ne_nil {st : Store} {token : String} {u : FieldMap}
    (h : User.getByToken st token = .ok u) : u.isEmpty = false := by
  unfold User.getByToken at h
  cases hidx : alGet st.idByToken token with
  | none => rw [hidx] at h; cases h
  | some userId => rw [hidx] at h; exact getById_ok_ne_nil h

theorem zaddNX_records (st : Store) (now : Int) (em : String) :
    (st.zaddNX now em).records = st.records := by
  unfold Store.zaddNX
  cases alGet st.archivedZ em <;> rfl

theorem zaddNX_idByEmail (st : Store) (now : Int) (em : String) :
    (st.zaddNX now em).idByEmail = st.idByEmail := by
  unfold Store.zaddNX
  cases alGet st.archivedZ em <;> rfl

theorem zaddNX_roleById (st : Store) (now : Int) (em : String) :
    (st.zaddNX now em).roleById = st.roleById := by
  unfold Store.zaddNX
  cases alGet st.archivedZ em <;> rfl

theorem zaddNX_idByToken (st : Store) (now : Int) (em : String) :
    (st.zaddNX now em).idByToken = st.idByToken := by
  unfold Store.zaddNX
  cases alGet st.archivedZ em <;> rfl

theorem zaddNX_archived (st : Store) (now : Int) (em : String) :
    (st.zaddNX now em).archived = st.archived := by
  unfold Store.zaddNX
  cases alGet st.archivedZ em <;> rfl

/-- With a non-empty salt argument the fresh random salt is ignored. -/
theorem createPasswordHash_of_salt_ne (c : Crypto) (pw s f : String) (hs : s ≠ "") :
    createPasswordHash c pw (some s) f =
      { hash := c.scryptHex (c.hmacSha256 s pw) s 64, salt := s } := by
  simp [createPasswordHash, jsTruthy, hs]

/-! ### Claim C1 -/

/-- C1: `createPasswordHash(password, salt)` is deterministic — independent of
the fresh random salt it would otherwise draw — and equals the hex scrypt
(64-byte output) of the hex HMAC-SHA256 digest of the password keyed by the
salt, the same salt feeding both steps; and for a user that the email lookup
resolves, `authenticate` answers `{user, authorized: true}` exactly when the
hash recomputed from the supplied password and the stored salt equals the
stored `hPassword`. -/
theorem C1_hash_deterministic_auth_iff
    (c : Crypto) (st : Store) (email pw s h fresh fresh2 : String) (u : FieldMap)
    (hu : User.getByEmail st email = .ok u)
    (hsalt : alGet u "salt" = some s) (hs : s ≠ "")
    (hhp : alGet u "hPassword" = some h) :
    createPasswordHash c pw (some s) fresh = createPasswordHash c pw (some s) fresh2
    ∧ createPasswordHash c pw (some s) fresh =
        { hash := c.scryptHex (c.hmacSha256 s pw) s 64, salt := s }
    ∧ (User.authenticate c st fresh email pw "emailAuth" = .authorized u
        ↔ (createPasswordHash c pw (some s) fresh).hash = h) := by
  have hdet : ∀ f : String, createPasswordHash c pw (some s) f =
      { hash := c.scryptHex (c.hmacSha256 s pw) s 64, salt := s } :=
    fun f => createPasswordHash_of_salt_ne c pw s f hs
  refine ⟨by rw [hdet, hdet], hdet fresh, ?_⟩
  have hne := getByEmail_ok_ne_nil hu
  unfold User.authenticate User.authCheck
  rw [if_pos rfl, hu]
  simp only [hne, Bool.false_eq_true, if_false, hsalt, hhp]
  by_cases heq : (createPasswordHash c pw (some s) fresh).hash = h
  · simp [heq]
  · simp [heq, Ne.symm heq]

/-! ### Concrete instances used by the witnesses and counterexamples -/

/-- A concrete, executable stand-in for the opaque crypto primitives
(collision-free on the inputs the witnesses use). -/
def cryptoW : Crypto :=
  { hmacSha256 := fun key msg => "hmac[" ++ key ++ "|" ++ msg ++ "]",
    scryptHex := fun pass salt n => "scrypt[" ++ pass ++ "|" ++ salt ++ "|" ++ toString n ++ "]" }

/-- The stored hash of password `pass1234` with salt `salt1` under `cryptoW`. -/
def hpwW : String := (createPasswordHash cryptoW "pass1234" (some "salt1") "f0").hash

/-- A concrete user record as `user.new` would write it. -/
def recW1 : FieldMap :=
  [("firstname", "John"), ("lastname", "Doe"), ("email", "john@doe.com"),
   ("role", "admin"), ("id", "u1"), ("salt", "salt1"), ("hPassword", hpwW),
   ("createdOn", "111"), ("token", "tok1")]

/-- A concrete store holding that user, fully indexed. -/
def stW1 : Store :=
  { records := [(userKey "admin" "u1", recW1)],
    idByEmail := [("john@doe.com", "u1")],
    roleById := [("u1", "admin")],
    idByToken := [("tok1", "u1")] }

/-- A JWT codec whose `verify` recognises the single token `"tokA"`. -/
def jwtW : JwtApi :=
  { sign := fun _ => "signed",
    verify := fun s =>
      if s = "tokA" then
        some { firstname := "John", lastname := "Doe", id := "u1",
               xsrfToken := "xsrfA", refreshToken := "rtA", sub := "u1" }
      else none }

/-- Witness for C1: the concrete user of `stW1` with its stored hash. -/
theorem C1_witness :
    ("salt1" : String) ≠ ""
    ∧ User.getByEmail stW1 "john@doe.com" = .ok recW1
    ∧ (User.authenticate cryptoW stW1 "f1" "john@doe.com" "pass1234" "emailAuth"
          = .authorized recW1
        ↔ (createPasswordHash cryptoW "pass1234" (some "salt1") "f1").hash = hpwW) :=
  ⟨by decide, rfl,
   (C1_hash_deterministic_auth_iff cryptoW stW1 "john@doe.com" "pass1234" "salt1" hpwW
      "f1" "f2" recW1 rfl (by decide) (by decide) (by decide)).2.2⟩

/-! ### Claim C2 -/

/-- C2: `verifyJWT` fails with `MissingAccessToken` when the access-token
cookie is absent (or falsy), and likewise when the XSRF token is absent from
the headers (plain or websocket-handshake channel); a token that verifies but
whose embedded `xsrfToken` claim differs from the supplied XSRF token fails
with `InvalidToken`; a verified, XSRF-matching token whose embedded user id
(equal to the `sub` subject for every token `generateToken` mints, last
conjunct) resolves to no user fails with `BadCredentials`; and every failure is
answered with HTTP 401 and not propagated. -/
theorem C2_verifyJWT_failures (jwt : JwtApi) (st : Store) (req : Req) :
    (jsTruthy (req.cookies.bind Cookies.access_token) = false →
       Secure.verifyJWT jwt st req = .error .missingAccessToken)
    ∧ (∀ h, req.headers = some h → h.upgrade ≠ some "websocket" →
         jsTruthy h.xSrfToken = false →
         Secure.verifyJWT jwt st req = .error .missingAccessToken)
    ∧ (∀ h, req.headers = some h → h.upgrade = some "websocket" →
         jsTruthy h.secWebsocketProtocol = false →
         Secure.verifyJWT jwt st req = .error .missingAccessToken)
    ∧ (∀ t x claims, req.cookies.bind Cookies.access_token = some t → t ≠ "" →
         Secure.xsrfFromHeaders req.headers = .ok x →
         jwt.verify t = some claims → x ≠ claims.xsrfToken →
         Secure.verifyJWT jwt st req = .error .invalidToken)
    ∧ (∀ t x claims e, req.cookies.bind Cookies.access_token = some t → t ≠ "" →
         Secure.xsrfFromHeaders req.headers = .ok x →
         jwt.verify t = some claims → x = claims.xsrfToken →
         User.getById st claims.id = .error e →
         Secure.verifyJWT jwt st req = .error .badCredentials)
    ∧ (∀ e, Secure.verifyJWT jwt st req = .error e →
         Secure.verifyJWTResponse jwt st req = some (401, e))
    ∧ (∀ u x r, (User.mkAccessClaims u x r).sub = (User.mkAccessClaims u x r).id) := by
  refine ⟨?_, ?_, ?_, ?_, ?_, ?_, fun u x r => rfl⟩
  · intro hc
    simp [Secure.verifyJWT, hc]
  · intro h hh hup hx
    by_cases hc : jsTruthy (req.cookies.bind Cookies.access_token)
    · simp [Secure.verifyJWT, hc, Secure.xsrfFromHeaders, hh, hup, hx]
    · simp [Secure.verifyJWT, hc]
  · intro h hh hup hx
    by_cases hc : jsTruthy (req.cookies.bind Cookies.access_token)
    · simp [Secure.verifyJWT, hc, Secure.xsrfFromHeaders, hh, hup, hx]
    · simp [Secure.verifyJWT, hc]
  · intro t x claims hc ht hx hv hne
    have hct : jsTruthy (req.cookies.bind Cookies.access_token) = true := by
      rw [hc]; simpa [jsTruthy] using ht
    have hcd : (req.cookies.bind Cookies.access_token).getD "" = t := by rw [hc]; rfl
    simp [Secure.verifyJWT, hct, hcd, hx, hv, hne]
  · intro t x claims e hc ht hx hv heq hget
    have hct : jsTruthy (req.cookies.bind Cookies.access_token) = true := by
      rw [hc]; simpa [jsTruthy] using ht
    have hcd : (req.cookies.bind Cookies.access_token).getD "" = t := by rw [hc]; rfl
    simp [Secure.verifyJWT, hct, hcd, hx, hv, heq, hget]
  · intro e he
    simp [Secure.verifyJWTResponse, he]

/-- Witness for C2: a request with no cookie at all is rejected with
`MissingAccessToken`, and the response is HTTP 401. -/
theorem C2_witness :
    jsTruthy ((Req.mk none none).cookies.bind Cookies.access_token) = false
    ∧ Secure.verifyJWT jwtW stW1 (Req.mk none none) = .error .missingAccessToken
    ∧ Secure.verifyJWTResponse jwtW stW1 (Req.mk none none)
        = some (401, UserErr.missingAccessToken) := by
  refine ⟨rfl, (C2_verifyJWT_failures jwtW stW1 (Req.mk none none)).1 rfl, ?_⟩
  exact (C2_verifyJWT_failures jwtW stW1 (Req.mk none none)).2.2.2.2.2.1
    UserErr.missingAccessToken ((C2_verifyJWT_failures jwtW stW1 (Req.mk none none)).1 rfl)

/-! ### Claim C3 -/

/-- C3: the refresh flow fails with `InvalidToken` when the supplied refresh
token has no record, with `ExpiredToken` when its record's `expiresOn` is
before now; otherwise (the record's user resolving, and the freshly drawn
refresh token being new) it succeeds, `generateToken` has persisted a record
for the new refresh token whose expiry lies in the future, and the old
refresh-token record is deleted, so the old token no longer resolves. -/
theorem C3_refreshToken_rotation (jwt : JwtApi) (cfg : User.TokenCfg) (now : Int)
    (xsrfFresh refreshFresh : String) (cookies : Cookies) (t : String) (st : Store)
    (hc : cookies.refresh_token = some t) (ht : t ≠ "") :
    (alGet st.refreshTokens t = none →
       Controllers.refreshToken jwt cfg now xsrfFresh refreshFresh (some cookies) st
         = (.error .invalidToken, st))
    ∧ (∀ oldRec, alGet st.refreshTokens t = some oldRec → oldRec.expiresOn < now →
         Controllers.refreshToken jwt cfg now xsrfFresh refreshFresh (some cookies) st
           = (.error .expiredToken, st))
    ∧ (∀ oldRec user, alGet st.refreshTokens t = some oldRec → ¬ oldRec.expiresOn < now →
         User.getById st oldRec.userId = .ok user →
         refreshFresh ≠ t → 0 < cfg.refreshExpiresIn →
         ∃ toks st',
           Controllers.refreshToken jwt cfg now xsrfFresh refreshFresh (some cookies) st
             = (.ok toks, st')
           ∧ toks.refreshToken = refreshFresh
           ∧ alGet st'.refreshTokens refreshFresh =
               some { userId := jsUndefStr (alGet user "id"),
                      expiresOn := now + cfg.refreshExpiresIn }
           ∧ now < now + cfg.refreshExpiresIn
           ∧ alGet st'.refreshTokens t = none) := by
  refine ⟨?_, ?_, ?_⟩
  · intro habs
    simp [Controllers.refreshToken, hc, jsTruthy, ht, habs]
  · intro oldRec hrec hexp
    simp [Controllers.refreshToken, hc, jsTruthy, ht, hrec, hexp]
  · intro oldRec user hrec hexp hget hne httl
    have heq : Controllers.refreshToken jwt cfg now xsrfFresh refreshFresh (some cookies) st
        = (.ok (User.generateToken jwt cfg now xsrfFresh refreshFresh user st).1,
           { (User.generateToken jwt cfg now xsrfFresh refreshFresh user st).2 with
             refreshTokens :=
               alDel (User.generateToken jwt cfg now xsrfFresh refreshFresh user st).2.refreshTokens
                 t }) := by
      simp [Controllers.refreshToken, hc, jsTruthy, ht, hrec, hexp, hget]
    refine ⟨_, _, heq, ?_, ?_, by omega, ?_⟩
    · simp [User.generateToken]
    · simp [User.generateToken, alGet_alDel, alGet_alSet, hne]
    · simp [alGet_alDel]

/-- A store for the C3 witness: `stW1` plus a live refresh-token record. -/
def stW3 : Store :=
  { stW1 with refreshTokens := [("rt0", { userId := "u1", expiresOn := 500 })] }

/-- Witness for C3: rotating the concrete token `rt0` at time 100 succeeds,
persists the new record with future expiry, and drops the old one. -/
theorem C3_witness :
    (Cookies.mk none (some "rt0")).refresh_token = some "rt0"
    ∧ alGet stW3.refreshTokens "rt0" = some { userId := "u1", expiresOn := 500 }
    ∧ ¬ (500 : Int) < 100
    ∧ User.getById stW3 "u1" = .ok recW1
    ∧ ("rt1" : String) ≠ "rt0"
    ∧ (0 : Int) < 1000
    ∧ ∃ toks st',
        Controllers.refreshToken jwtW { refreshExpiresIn := 1000 } 100 "x1" "rt1"
            (some (Cookies.mk none (some "rt0"))) stW3
          = (.ok toks, st')
        ∧ toks.refreshToken = "rt1"
        ∧ alGet st'.refreshTokens "rt1" =
            some { userId := jsUndefStr (alGet recW1 "id"), expiresOn := 100 + 1000 }
        ∧ (100 : Int) < 100 + 1000
        ∧ alGet st'.refreshTokens "rt0" = none :=
  ⟨rfl, by decide, by decide, rfl, by decide, by decide,
   (C3_refreshToken_rotation jwtW { refreshExpiresIn := 1000 } 100 "x1" "rt1"
      (Cookies.mk none (some "rt0")) "rt0" stW3 rfl (by decide)).2.2
      { userId := "u1", expiresOn := 500 } recW1 (by decide) (by decide) rfl
      (by decide) (by decide)⟩

/-! ### Claim C4 -/

/-- C4: `user.new` fails with `UserAlreadyExists` and leaves the store
unchanged when the email already resolves in the `idByEmail` index; otherwise
it succeeds with `{userAdded: true, id}`, the record carries the assigned id,
salt, hashed password, url-token and `createdOn` with the lowercased email,
and all three indexes resolve to that same user. -/
theorem C4_new (c : Crypto) (now : Int) (fresh : User.NewFresh) (u : User.NewUser)
    (password : String) (st : Store) :
    (jsTruthy (alGet st.idByEmail u.email) = true →
       User.new c now fresh u password st = (.error .userAlreadyExists, st))
    ∧ (alGet st.idByEmail u.email = none →
       ∃ st', User.new c now fresh u password st = (.ok { userAdded := true, id := fresh.id }, st')
         ∧ alGet st'.idByEmail (jsToLower u.email) = some fresh.id
         ∧ alGet st'.roleById fresh.id = some u.role
         ∧ alGet st'.idByToken fresh.urlToken = some fresh.id
         ∧ ∃ rec, User.getById st' fresh.id = .ok rec
             ∧ alGet rec "id" = some fresh.id
             ∧ alGet rec "email" = some (jsToLower u.email)
             ∧ alGet rec "role" = some u.role
             ∧ alGet rec "salt" = some fresh.salt
             ∧ alGet rec "hPassword" =
                 some (createPasswordHash c password (some fresh.salt) fresh.salt).hash
             ∧ alGet rec "token" = some fresh.urlToken
             ∧ alGet rec "createdOn" = some (toString now)) := by
  constructor
  · intro hdup
    simp [User.new, hdup]
  · intro habs
    have hfalse : jsTruthy (alGet st.idByEmail u.email) = false := by
      rw [habs]; rfl
    refine ⟨{ st with
        records := alSet st.records (userKey u.role fresh.id)
          (fmMerge (st.getRecord (userKey u.role fresh.id))
            [("firstname", u.firstname), ("lastname", u.lastname), ("email", (jsToLower u.email)),
             ("role", u.role), ("id", fresh.id), ("salt", fresh.salt),
             ("hPassword", (createPasswordHash c password (some fresh.salt) fresh.salt).hash),
             ("createdOn", toString now), ("token", fresh.urlToken)]),
        idByEmail := alSet st.idByEmail (jsToLower u.email) fresh.id,
        roleById := alSet st.roleById fresh.id u.role,
        idByToken := alSet st.idByToken fresh.urlToken fresh.id },
      ?_, ?_, ?_, ?_, ?_⟩
    · simp [User.new, hfalse, Store.hsetRecord]
    · simp [alGet_alSet]
    · simp [alGet_alSet]
    · simp [alGet_alSet]
    · refine ⟨fmMerge (st.getRecord (userKey u.role fresh.id))
          [("firstname", u.firstname), ("lastname", u.lastname), ("email", (jsToLower u.email)),
           ("role", u.role), ("id", fresh.id), ("salt", fresh.salt),
           ("hPassword", (createPasswordHash c password (some fresh.salt) fresh.salt).hash),
           ("createdOn", toString now), ("token", fresh.urlToken)],
        getById_ok_of _ fresh.id u.role _ (by simp [alGet_alSet]) (by simp [alGet_alSet])
          (fmMerge_ne_nil _ _ _ _), ?_, ?_, ?_, ?_, ?_, ?_, ?_⟩
      all_goals simp [fmMerge, alGet_alSet]

/-- A fresh-randoms bundle for the C4/C6 witnesses. -/
def freshW : User.NewFresh := { id := "u9", salt := "salt9", urlToken := "tok9" }

/-- The user fields the C4/C6 witnesses create. -/
def newUserW : User.NewUser :=
  { firstname := "Jane", lastname := "Doe", email := "Jane@doe.com", role := "customer" }

/-- Witness for C4: creating `Jane@doe.com` in the empty store succeeds and all
three indexes resolve to the new user. -/
theorem C4_witness :
    alGet (Store.mk [] [] [] [] [] [] [] []).idByEmail newUserW.email = none
    ∧ ∃ st', User.new cryptoW 222 freshW newUserW "pw9" (Store.mk [] [] [] [] [] [] [] [])
          = (.ok { userAdded := true, id := freshW.id }, st')
        ∧ alGet st'.idByEmail (jsToLower newUserW.email) = some freshW.id
        ∧ alGet st'.roleById freshW.id = some newUserW.role
        ∧ alGet st'.idByToken freshW.urlToken = some freshW.id
        ∧ ∃ rec, User.getById st' freshW.id = .ok rec
            ∧ alGet rec "id" = some freshW.id
            ∧ alGet rec "email" = some (jsToLower newUserW.email)
            ∧ alGet rec "role" = some newUserW.role
            ∧ alGet rec "salt" = some freshW.salt
            ∧ alGet rec "hPassword" =
                some (createPasswordHash cryptoW "pw9" (some freshW.salt) freshW.salt).hash
            ∧ alGet rec "token" = some freshW.urlToken
            ∧ alGet rec "createdOn" = some (toString (222 : Int)) :=
  ⟨rfl, (C4_new cryptoW 222 freshW newUserW "pw9" (Store.mk [] [] [] [] [] [] [] [])).2 rfl⟩

/-! ### Claim C5 -/

/-- `authCheck` authorizes exactly the non-empty lookup results whose stored
hash matches the recomputed one. -/
theorem authCheck_authorized_iff (c : Crypto) (fresh pw : String)
    (res : Except UserErr FieldMap)
    (hne : ∀ v, res = .ok v → v.isEmpty = false) (u : FieldMap) :
    User.authCheck c fresh pw res = .authorized u ↔
      (res = .ok u
       ∧ alGet u "hPassword" = some (createPasswordHash c pw (alGet u "salt") fresh).hash) := by
  unfold User.authCheck
  cases res with
  | error e => simp
  | ok v =>
      have hv := hne v rfl
      simp only [hv, Bool.false_eq_true, if_false, Except.ok.injEq]
      by_cases hmatch : alGet v "hPassword" =
          some (createPasswordHash c pw (alGet v "salt") fresh).hash
      · simp only [hmatch, if_true]
        constructor
        · rintro h
          cases h
          exact ⟨rfl, hmatch⟩
        · rintro ⟨h, _⟩
          cases h
          rfl
      · simp only [hmatch, if_false]
        constructor
        · rintro h
          cases h
        · rintro ⟨h, hm⟩
          cases h
          exact absurd hm hmatch

/-- `authCheck` never returns the `{error, authorized: false}` shape: when it
does not authorize, it answers a plain `{authorized: false}`. -/
theorem authCheck_denied_of_not_authorized (c : Crypto) (fresh pw : String)
    (res : Except UserErr FieldMap)
    (h : ¬ ∃ u, User.authCheck c fresh pw res = .authorized u) :
    User.authCheck c fresh pw res = .denied := by
  unfold User.authCheck at h ⊢
  cases res with
  | error e => rfl
  | ok v =>
      by_cases hv : v.isEmpty
      · simp [hv]
      · by_cases hmatch : alGet v "hPassword" =
            some (createPasswordHash c pw (alGet v "salt") fresh).hash
        · exact absurd ⟨v, by simp [hv, hmatch]⟩ h
        · simp [hv, hmatch]

/-- C5: `authenticate` with a method outside `{emailAuth, streamLineAuth}`
fails with the `AuthMethodNotRecognized` error; a recognized method looks the
user up by email or by url-token respectively and returns
`{user, authorized: true}` exactly when the recomputed hash equals the stored
one, and plain `{authorized: false}` (no user field) otherwise. -/
theorem C5_authenticate_methods (c : Crypto) (st : Store) (fresh id pw : String) :
    (∀ m, m ≠ "emailAuth" → m ≠ "streamLineAuth" →
       User.authenticate c st fresh id pw m = .deniedError .authMethodNotRecognized)
    ∧ (∀ u, User.authenticate c st fresh id pw "emailAuth" = .authorized u ↔
         (User.getByEmail st id = .ok u
          ∧ alGet u "hPassword" =
              some (createPasswordHash c pw (alGet u "salt") fresh).hash))
    ∧ (∀ u, User.authenticate c st fresh id pw "streamLineAuth" = .authorized u ↔
         (User.getByToken st id = .ok u
          ∧ alGet u "hPassword" =
              some (createPasswordHash c pw (alGet u "salt") fresh).hash))
    ∧ ((¬ ∃ u, User.authenticate c st fresh id pw "emailAuth" = .authorized u) →
         User.authenticate c st fresh id pw "emailAuth" = .denied)
    ∧ ((¬ ∃ u, User.authenticate c st fresh id pw "streamLineAuth" = .authorized u) →
         User.authenticate c st fresh id pw "streamLineAuth" = .denied) := by
  refine ⟨?_, ?_, ?_, ?_, ?_⟩
  · intro m h1 h2
    simp [User.authenticate, h1, h2]
  · intro u
    rw [show User.authenticate c st fresh id pw "emailAuth"
        = User.authCheck c fresh pw (User.getByEmail st id) from by simp [User.authenticate]]
    exact authCheck_authorized_iff c fresh pw _ (fun v hv => getByEmail_ok_ne_nil hv) u
  · intro u
    rw [show User.authenticate c st fresh id pw "streamLineAuth"
        = User.authCheck c fresh pw (User.getByToken st id) from by simp [User.authenticate]]
    exact authCheck_authorized_iff c fresh pw _ (fun v hv => getByToken_ok_ne_nil hv) u
  · rw [show User.authenticate c st fresh id pw "emailAuth"
        = User.authCheck c fresh pw (User.getByEmail st id) from by simp [User.authenticate]]
    exact authCheck_denied_of_not_authorized c fresh pw _
  · rw [show User.authenticate c st fresh id pw "streamLineAuth"
        = User.authCheck c fresh pw (User.getByToken st id) from by simp [User.authenticate]]
    exact authCheck_denied_of_not_authorized c fresh pw _

/-! ### Claim C6 -/

/-- `user.update` called with only `{id, password}` (as `resetPassword` does)
re-hashes the password with the stored salt and merges
`{id, updatedOn, hPassword}` into the record at the old role-scoped key,
leaving every other key family untouched. -/
theorem update_password_only (c : Crypto) (iek : String → Bool) (now : Int) (fs : String)
    (st : Store) (id role : String) (rec : FieldMap) (pw : String)
    (hrole : alGet st.roleById id = some role)
    (hrec : alGet st.records (userKey role id) = some rec)
    (hne : rec ≠ [])
    (hrrole : alGet rec "role" = some role)
    (hpw : pw ≠ "") :
    User.update c iek now fs { id := id, password := some pw } st
      = (.ok { userUpdated := true, id := jsUndefStr (alGet rec "id") },
         { st with
             records := alSet st.records (userKey role id)
                 (fmMerge rec
                   [("id", id), ("updatedOn", toString now),
                    ("hPassword", (createPasswordHash c pw (alGet rec "salt") fs).hash)]) }) := by
  have hget : User.getById st id = .ok rec := getById_ok_of st id role rec hrole hrec hne
  have hguard : User.emailStillExists st { id := id, password := some pw } = false := rfl
  unfold User.update
  simp only [hguard, Bool.false_eq_true, if_false, hget]
  simp [jsTruthy, hpw, User.optField, hrrole, jsUndefStr, Store.hsetRecord,
    Store.getRecord, hrec]

/-- `user.new` on a fresh email: the result and the exact store it writes. -/
theorem new_success (c : Crypto) (now : Int) (fresh : User.NewFresh) (u : User.NewUser)
    (password : String) (st : Store)
    (hfalse : jsTruthy (alGet st.idByEmail u.email) = false) :
    User.new c now fresh u password st
      = (.ok { userAdded := true, id := fresh.id },
         { st with
             records := alSet st.records (userKey u.role fresh.id)
                 (fmMerge (st.getRecord (userKey u.role fresh.id))
                   [("firstname", u.firstname), ("lastname", u.lastname),
                    ("email", (jsToLower u.email)), ("role", u.role), ("id", fresh.id),
                    ("salt", fresh.salt),
                    ("hPassword",
                      (createPasswordHash c password (some fresh.salt) fresh.salt).hash),
                    ("createdOn", toString now), ("token", fresh.urlToken)]),
             idByEmail := alSet st.idByEmail (jsToLower u.email) fresh.id,
             roleById := alSet st.roleById fresh.id u.role,
             idByToken := alSet st.idByToken fresh.urlToken fresh.id }) := by
  simp [User.new, hfalse, Store.hsetRecord]

/-- C6: after creating a user with `pwOld` and minting a reset token for it via
`sendAskResetPassword`, submitting that token with `pwNew` to `resetPassword`
rewrites the stored hash, so `authenticate` now denies the old password and
authorizes the new one (the two hashes differing, which real scrypt guarantees
for distinct passwords up to collisions); and `resetPassword` with a token that
has no stored record fails with `MissingPasswordToken`. -/
theorem C6_reset_password_flow (c : Crypto) (isEmailOk : String → Bool)
    (now1 now2 : Int) (fresh : User.NewFresh) (u : User.NewUser)
    (pwOld pwNew rt fs1 fs2 fs3 : String) (st0 : Store)
    (h0 : alGet st0.idByEmail u.email = none)
    (hsalt : fresh.salt ≠ "") (hid : fresh.id ≠ "") (hpnew : pwNew ≠ "")
    (hdiff : (createPasswordHash c pwOld (some fresh.salt) fs2).hash ≠
             (createPasswordHash c pwNew (some fresh.salt) fs2).hash) :
    (∀ st tok pw, jsTruthy (alGet st.passwordTokens (User.passwordTokenKey tok)) = false →
       User.resetPassword c isEmailOk now2 fs1 st tok pw = (.error .missingPasswordToken, st))
    ∧ User.authenticate c
        (User.resetPassword c isEmailOk now2 fs1
          (User.sendAskResetPassword (User.new c now1 fresh u pwOld st0).2 (jsToLower u.email) rt).2
          rt pwNew).2
        fs2 (jsToLower u.email) pwOld "emailAuth" = .denied
    ∧ ∃ u', User.authenticate c
        (User.resetPassword c isEmailOk now2 fs1
          (User.sendAskResetPassword (User.new c now1 fresh u pwOld st0).2 (jsToLower u.email) rt).2
          rt pwNew).2
        fs3 (jsToLower u.email) pwNew "emailAuth" = .authorized u' := by
  have hfalse : jsTruthy (alGet st0.idByEmail u.email) = false := by rw [h0]; rfl
  set rec1 : FieldMap := fmMerge (st0.getRecord (userKey u.role fresh.id))
    [("firstname", u.firstname), ("lastname", u.lastname), ("email", (jsToLower u.email)),
     ("role", u.role), ("id", fresh.id), ("salt", fresh.salt),
     ("hPassword", (createPasswordHash c pwOld (some fresh.salt) fresh.salt).hash),
     ("createdOn", toString now1), ("token", fresh.urlToken)] with hrec1def
  set stOne : Store := { st0 with
      records := alSet st0.records (userKey u.role fresh.id) rec1,
      idByEmail := alSet st0.idByEmail (jsToLower u.email) fresh.id,
      roleById := alSet st0.roleById fresh.id u.role,
      idByToken := alSet st0.idByToken fresh.urlToken fresh.id } with hstOnedef
  have hst1 : User.new c now1 fresh u pwOld st0
      = (.ok { userAdded := true, id := fresh.id }, stOne) := by
    rw [hstOnedef, hrec1def]
    exact new_success c now1 fresh u pwOld st0 hfalse
  have hr_id : alGet rec1 "id" = some fresh.id := by
    rw [hrec1def]; simp [fmMerge, alGet_alSet]
  have hr_salt : alGet rec1 "salt" = some fresh.salt := by
    rw [hrec1def]; simp [fmMerge, alGet_alSet]
  have hr_role : alGet rec1 "role" = some u.role := by
    rw [hrec1def]; simp [fmMerge, alGet_alSet]
  have hrec1ne : rec1 ≠ [] := by
    rw [hrec1def]; exact fmMerge_ne_nil _ _ _ _
  have h1email : alGet stOne.idByEmail (jsToLower u.email) = some fresh.id := by
    rw [hstOnedef]; simp [alGet_alSet]
  have h1role : alGet stOne.roleById fresh.id = some u.role := by
    rw [hstOnedef]; simp [alGet_alSet]
  have h1rec : alGet stOne.records (userKey u.role fresh.id) = some rec1 := by
    rw [hstOnedef]; simp [alGet_alSet]
  have hget1 : User.getByEmail stOne (jsToLower u.email) = .ok rec1 := by
    unfold User.getByEmail
    rw [h1email]
    exact getById_ok_of stOne fresh.id u.role rec1 h1role h1rec hrec1ne
  set stTwo : Store := { stOne with
      passwordTokens := alSet stOne.passwordTokens (User.passwordTokenKey rt) fresh.id }
    with hstTwodef
  have hsend : User.sendAskResetPassword stOne (jsToLower u.email) rt = (.ok (), stTwo) := by
    unfold User.sendAskResetPassword
    rw [hget1, hstTwodef]
    simp [jsUndefStr, hr_id]
  have h2pt : alGet stTwo.passwordTokens (User.passwordTokenKey rt) = some fresh.id := by
    rw [hstTwodef]; simp [alGet_alSet]
  have h2role : alGet stTwo.roleById fresh.id = some u.role := by
    rw [hstTwodef]; exact h1role
  have h2rec : alGet stTwo.records (userKey u.role fresh.id) = some rec1 := by
    rw [hstTwodef]; exact h1rec
  set Hnew := (createPasswordHash c pwNew (alGet rec1 "salt") fs1).hash with hHnewdef
  set rec3 : FieldMap :=
    fmMerge rec1 [("id", fresh.id), ("updatedOn", toString now2), ("hPassword", Hnew)]
    with hrec3def
  set stThree : Store := { stTwo with
      records := alSet stTwo.records (userKey u.role fresh.id) rec3 } with hstThreedef
  have hreset : User.resetPassword c isEmailOk now2 fs1 stTwo rt pwNew
      = (.ok { userUpdated := true, id := jsUndefStr (alGet rec1 "id") }, stThree) := by
    unfold User.resetPassword
    rw [h2pt]
    have hidt : jsTruthy (some fresh.id) = true := by simp [jsTruthy, hid]
    rw [if_neg (by simp [hidt])]
    simp only [Option.getD_some]
    rw [getById_ok_of stTwo fresh.id u.role rec1 h2role h2rec hrec1ne,
      hstThreedef, hrec3def, hHnewdef]
    exact update_password_only c isEmailOk now2 fs1 stTwo fresh.id u.role rec1 pwNew
      h2role h2rec hrec1ne hr_role hpnew
  have h3email : alGet stThree.idByEmail (jsToLower u.email) = some fresh.id := by
    rw [hstThreedef, hstTwodef]; exact h1email
  have h3role : alGet stThree.roleById fresh.id = some u.role := by
    rw [hstThreedef, hstTwodef]; exact h1role
  have h3rec : alGet stThree.records (userKey u.role fresh.id) = some rec3 := by
    rw [hstThreedef]; simp [alGet_alSet]
  have hrec3ne : rec3 ≠ [] := by
    rw [hrec3def]; exact fmMerge_ne_nil _ _ _ _
  have hget3 : User.getByEmail stThree (jsToLower u.email) = .ok rec3 := by
    unfold User.getByEmail
    rw [h3email]
    exact getById_ok_of stThree fresh.id u.role rec3 h3role h3rec hrec3ne
  have h3salt : alGet rec3 "salt" = some fresh.salt := by
    rw [hrec3def]
    simp [fmMerge, alGet_alSet, hr_salt]
  have h3hpw : alGet rec3 "hPassword" = some Hnew := by
    rw [hrec3def]
    simp [fmMerge, alGet_alSet]
  have hcanonOld : ∀ f, (createPasswordHash c pwOld (some fresh.salt) f).hash
      = c.scryptHex (c.hmacSha256 fresh.salt pwOld) fresh.salt 64 := fun f => by
    rw [createPasswordHash_of_salt_ne c pwOld fresh.salt f hsalt]
  have hcanonNew : ∀ f, (createPasswordHash c pwNew (some fresh.salt) f).hash
      = c.scryptHex (c.hmacSha256 fresh.salt pwNew) fresh.salt 64 := fun f => by
    rw [createPasswordHash_of_salt_ne c pwNew fresh.salt f hsalt]
  have hHnew : Hnew = c.scryptHex (c.hmacSha256 fresh.salt pwNew) fresh.salt 64 := by
    rw [hHnewdef, hr_salt]
    exact hcanonNew fs1
  have hdiffC : c.scryptHex (c.hmacSha256 fresh.salt pwOld) fresh.salt 64
      ≠ c.scryptHex (c.hmacSha256 fresh.salt pwNew) fresh.salt 64 := by
    rw [hcanonOld fs2, hcanonNew fs2] at hdiff
    exact hdiff
  refine ⟨fun st tok pw h => by simp [User.resetPassword, h], ?_, ?_⟩
  · simp only [hst1, hsend, hreset]
    rw [show User.authenticate c stThree fs2 (jsToLower u.email) pwOld "emailAuth"
        = User.authCheck c fs2 pwOld (User.getByEmail stThree (jsToLower u.email)) from by
      simp [User.authenticate]]
    apply authCheck_denied_of_not_authorized
    rintro ⟨u', hu'⟩
    rw [authCheck_authorized_iff c fs2 pwOld _ (fun v hv => getByEmail_ok_ne_nil hv) u'] at hu'
    obtain ⟨hok, hhash⟩ := hu'
    rw [hget3] at hok
    injection hok with hueq
    subst hueq
    rw [h3hpw, h3salt, hHnew, hcanonOld fs2] at hhash
    exact hdiffC (Option.some_injective _ hhash).symm
  · simp only [hst1, hsend, hreset]
    rw [show User.authenticate c stThree fs3 (jsToLower u.email) pwNew "emailAuth"
        = User.authCheck c fs3 pwNew (User.getByEmail stThree (jsToLower u.email)) from by
      simp [User.authenticate]]
    refine ⟨rec3, (authCheck_authorized_iff c fs3 pwNew _
      (fun v hv => getByEmail_ok_ne_nil hv) rec3).2 ⟨hget3, ?_⟩⟩
    rw [h3hpw, h3salt, hHnew, hcanonNew fs3]

/-- A concrete, executable stand-in for the `isEmailOk` regex (it agrees with
the regex's verdict on every email the witnesses use). -/
def emailOkW : String → Bool := fun e => e.data.contains '@'

/-- Witness for C6: the full create → ask-reset → reset flow at concrete
inputs; the old password is denied and the new one authorized afterwards. -/
theorem C6_witness :
    alGet (Store.mk [] [] [] [] [] [] [] []).idByEmail newUserW.email = none
    ∧ freshW.salt ≠ "" ∧ freshW.id ≠ "" ∧ ("pw10" : String) ≠ ""
    ∧ (createPasswordHash cryptoW "pw9" (some freshW.salt) "f2").hash ≠
        (createPasswordHash cryptoW "pw10" (some freshW.salt) "f2").hash
    ∧ User.authenticate cryptoW
        (User.resetPassword cryptoW emailOkW 333 "f1"
          (User.sendAskResetPassword (User.new cryptoW 222 freshW newUserW "pw9"
            (Store.mk [] [] [] [] [] [] [] [])).2 (jsToLower newUserW.email) "rst1").2
          "rst1" "pw10").2
        "f2" (jsToLower newUserW.email) "pw9" "emailAuth" = .denied
    ∧ ∃ u', User.authenticate cryptoW
        (User.resetPassword cryptoW emailOkW 333 "f1"
          (User.sendAskResetPassword (User.new cryptoW 222 freshW newUserW "pw9"
            (Store.mk [] [] [] [] [] [] [] [])).2 (jsToLower newUserW.email) "rst1").2
          "rst1" "pw10").2
        "f3" (jsToLower newUserW.email) "pw10" "emailAuth" = .authorized u' :=
  ⟨rfl, by decide, by decide, by decide, by decide,
   (C6_reset_password_flow cryptoW emailOkW 222 333 freshW newUserW "pw9" "pw10" "rst1"
      "f1" "f2" "f3" (Store.mk [] [] [] [] [] [] [] []) rfl (by decide) (by decide)
      (by decide) (by decide)).2.1,
   (C6_reset_password_flow cryptoW emailOkW 222 333 freshW newUserW "pw9" "pw10" "rst1"
      "f1" "f2" "f3" (Store.mk [] [] [] [] [] [] [] []) rfl (by decide) (by decide)
      (by decide) (by decide)).2.2⟩

/-- Witness for C5: the unknown method `basicAuth` is rejected with
`AuthMethodNotRecognized`, and the url-token method authorizes the concrete
user of `stW1` exactly on its stored hash. -/
theorem C5_witness :
    ("basicAuth" : String) ≠ "emailAuth" ∧ ("basicAuth" : String) ≠ "streamLineAuth"
    ∧ User.authenticate cryptoW stW1 "f1" "tok1" "pass1234" "basicAuth"
        = .deniedError .authMethodNotRecognized
    ∧ (User.authenticate cryptoW stW1 "f1" "tok1" "pass1234" "streamLineAuth"
          = .authorized recW1
        ↔ (User.getByToken stW1 "tok1" = .ok recW1
           ∧ alGet recW1 "hPassword" =
               some (createPasswordHash cryptoW "pass1234" (alGet recW1 "salt") "f1").hash)) :=
  ⟨by decide, by decide,
   (C5_authenticate_methods cryptoW stW1 "f1" "tok1" "pass1234").1 "basicAuth"
     (by decide) (by decide),
   ((C5_authenticate_methods cryptoW stW1 "f1" "tok1" "pass1234").2.2.1 recW1)⟩

/-! ### Claim C7 -/

/-- A concrete user stored under role `customer`, fully indexed. -/
def recW7 : FieldMap :=
  [("firstname", "John"), ("lastname", "Doe"), ("email", "john@doe.com"),
   ("role", "customer"), ("id", "u1"), ("salt", "salt1"), ("hPassword", "h1"),
   ("createdOn", "111"), ("token", "tok1")]

/-- The store holding `recW7`. -/
def stW7 : Store :=
  { records := [(userKey "customer" "u1", recW7)],
    idByEmail := [("john@doe.com", "u1")],
    roleById := [("u1", "customer")],
    idByToken := [("tok1", "u1")] }

/-- An update that changes the role from `customer` to `admin`. -/
def updW7 : User.UpdateParams :=
  { id := "u1", role := some "admin", firstname := some "John", lastname := some "Doe" }

/-- C7 (code bug, evaluated at the failing input): updating the role of the
`customer` user `u1` to `admin` reports success, yet afterwards nothing is
stored under the new role-scoped key `user:admin:u1`, the old key
`user:customer:u1` still exists, and the `roleById` index still maps `u1` to
`customer` — while the record's own `role` field now says `admin`. The
role-move branch is dead: `isRoleExist` compares the string role against the
numbers `[1, 2]`, and even its body deletes and rewrites the old-role key. -/
theorem C7_role_update_bug :
    isRoleExist "admin" = false
    ∧ (User.update cryptoW emailOkW 444 "f1" updW7 stW7).1
        = .ok { userUpdated := true, id := "u1" }
    ∧ alGet (User.update cryptoW emailOkW 444 "f1" updW7 stW7).2.records
        (userKey "admin" "u1") = none
    ∧ (alGet (User.update cryptoW emailOkW 444 "f1" updW7 stW7).2.records
        (userKey "customer" "u1")).isSome = true
    ∧ alGet (User.update cryptoW emailOkW 444 "f1" updW7 stW7).2.roleById "u1"
        = some "customer"
    ∧ alGet ((User.update cryptoW emailOkW 444 "f1" updW7 stW7).2.getRecord
        (userKey "customer" "u1")) "role" = some "admin" :=
  ⟨rfl, rfl, by decide, by decide, by decide, by decide⟩

/-! ### Claim C8 -/

/-- An update of `u1`'s email that differs from the stored one only by case. -/
def updW8 : User.UpdateParams := { id := "u1", email := some "John@doe.com" }

/-- C8 counterexample: updating the stored email `john@doe.com` to the valid,
different email `John@doe.com` reports success, but afterwards the lowercased
new email maps to nothing — the pipelined `hset` of the lowercased email and
`hdel` of the old email hit the same index entry, deleting it. -/
theorem C8_counterexample :
    emailOkW "John@doe.com" = true
    ∧ ("John@doe.com" : String) ≠ "john@doe.com"
    ∧ alGet stW7.idByEmail "john@doe.com" = some "u1"
    ∧ (User.update cryptoW emailOkW 444 "f1" updW8 stW7).1
        = .ok { userUpdated := true, id := "u1" }
    ∧ ¬ alGet (User.update cryptoW emailOkW 444 "f1" updW8 stW7).2.idByEmail
          (jsToLower "John@doe.com") = some "u1"
    ∧ alGet (User.update cryptoW emailOkW 444 "f1" updW8 stW7).2.idByEmail
        (jsToLower "John@doe.com") = none :=
  ⟨by decide, by decide, by decide, rfl, by decide, by decide⟩

/-- C8 amended: for an update carrying a valid new email whose LOWERCASED form
differs from the stored email, the `idByEmail` index afterwards maps the
lowercased new email to the user's id and the old entry is removed (when the
lowercased form coincides with the stored email, the entry is deleted
outright, as the counterexample shows). -/
theorem C8_email_update_amended (c : Crypto) (iek : String → Bool) (now : Int) (fs : String)
    (st : Store) (p : User.UpdateParams) (rec : FieldMap) (role e e0 uid : String)
    (hpe : p.email = some e) (he : e ≠ "") (hok : iek e = true)
    (hguard : User.emailStillExists st p = false)
    (hrole : alGet st.roleById p.id = some role)
    (hrec : alGet st.records (userKey role p.id) = some rec) (hne : rec ≠ [])
    (hrid : alGet rec "id" = some uid)
    (hre : alGet rec "email" = some e0)
    (hdiff : e ≠ e0)
    (hlow : jsToLower e ≠ e0) :
    alGet (User.update c iek now fs p st).2.idByEmail (jsToLower e) = some uid
    ∧ alGet (User.update c iek now fs p st).2.idByEmail e0 = none := by
  have hget : User.getById st p.id = .ok rec := getById_ok_of st p.id role rec hrole hrec hne
  unfold User.update
  simp only [hguard, Bool.false_eq_true, if_false, hget]
  simp [hpe, jsTruthy, he, hok, hre, hrid, hdiff, isRoleExist, Store.hsetRecord,
    jsUndefStr, alGet_alDel, alGet_alSet, hlow]

/-- Witness for the amended C8: updating `u1`'s email to `jane@doe.com`. -/
theorem C8_witness :
    User.emailStillExists stW7 { id := "u1", email := some "jane@doe.com" } = false
    ∧ emailOkW "jane@doe.com" = true
    ∧ jsToLower "jane@doe.com" ≠ "john@doe.com"
    ∧ alGet (User.update cryptoW emailOkW 444 "f1"
          { id := "u1", email := some "jane@doe.com" } stW7).2.idByEmail
        (jsToLower "jane@doe.com") = some "u1"
    ∧ alGet (User.update cryptoW emailOkW 444 "f1"
          { id := "u1", email := some "jane@doe.com" } stW7).2.idByEmail
        "john@doe.com" = none :=
  ⟨rfl, by decide, by decide,
   (C8_email_update_amended cryptoW emailOkW 444 "f1" stW7
      { id := "u1", email := some "jane@doe.com" } recW7 "customer" "jane@doe.com"
      "john@doe.com" "u1" rfl (by decide) (by decide) rfl (by decide) (by decide)
      (by decide) (by decide) (by decide) (by decide) (by decide)).1,
   (C8_email_update_amended cryptoW emailOkW 444 "f1" stW7
      { id := "u1", email := some "jane@doe.com" } recW7 "customer" "jane@doe.com"
      "john@doe.com" "u1" rfl (by decide) (by decide) rfl (by decide) (by decide)
      (by decide) (by decide) (by decide) (by decide) (by decide)).2⟩

/-! ### Claim C9 -/

/-- `stW1` with the user's email already present in the archival sorted set
(the user had been archived before, at time 111). -/
def stW9 : Store := { stW1 with archivedZ := [("john@doe.com", 111)] }

/-- C9 counterexample: deleting `u1` at time 222 succeeds, but the sorted-set
entry for its email keeps the OLD score 111 — `zadd` is issued with `NX`, so
the entry is NOT scored by this deletion's time. -/
theorem C9_del_nx_counterexample :
    (User.del jwtW 222 stW9 (GetOpts.byId "u1")).1
        = .ok { userDeleted := true, id := "u1" }
    ∧ alGet (User.del jwtW 222 stW9 (GetOpts.byId "u1")).2.archivedZ "john@doe.com"
        = some 111
    ∧ ¬ alGet (User.del jwtW 222 stW9 (GetOpts.byId "u1")).2.archivedZ "john@doe.com"
        = some 222 :=
  ⟨rfl, by decide, by decide⟩

/-- C9 amended: `del` on a resolvable user copies the full record into the
archive keyed by the email (the archive record carries the same id), ensures a
sorted-set entry for the email — scored by the deletion time only when the
email had no prior entry (`NX` keeps an existing score) — and removes the live
record and all three index entries; it returns `{userDeleted: true, id}`. -/
theorem C9_del_amended (jwt : JwtApi) (now : Int) (st : Store) (opts : GetOpts)
    (user : FieldMap) (uid em rl tk : String)
    (h : User.get jwt st opts = .ok user)
    (hnd : (user.map Prod.fst).Nodup)
    (hid : alGet user "id" = some uid)
    (hem : alGet user "email" = some em)
    (hrl : alGet user "role" = some rl)
    (htk : alGet user "token" = some tk) :
    (User.del jwt now st opts).1 = .ok { userDeleted := true, id := uid }
    ∧ (∃ arec, alGet (User.del jwt now st opts).2.archived em = some arec
        ∧ alGet arec "id" = some uid)
    ∧ (alGet (User.del jwt now st opts).2.archivedZ em).isSome = true
    ∧ (alGet st.archivedZ em = none →
        alGet (User.del jwt now st opts).2.archivedZ em = some now)
    ∧ alGet (User.del jwt now st opts).2.records (userKey rl uid) = none
    ∧ alGet (User.del jwt now st opts).2.idByEmail em = none
    ∧ alGet (User.del jwt now st opts).2.roleById uid = none
    ∧ alGet (User.del jwt now st opts).2.idByToken tk = none := by
  refine ⟨?_, ?_, ?_, ?_, ?_, ?_, ?_, ?_⟩
  · unfold User.del
    rw [h]
    simp [jsUndefStr, hid]
  · refine ⟨fmMerge ((alGet st.archived em).getD []) user, ?_,
      alGet_fmMerge_of_some _ hnd hid⟩
    unfold User.del
    rw [h]
    simp [jsUndefStr, hid, hem, hrl, htk, Store.delRecord, zaddNX_archived, alGet_alSet]
  · unfold User.del
    rw [h]
    cases hz : alGet st.archivedZ em with
    | some s =>
        simp [jsUndefStr, hid, hem, hrl, htk, Store.delRecord, Store.zaddNX, hz]
    | none =>
        simp [jsUndefStr, hid, hem, hrl, htk, Store.delRecord, Store.zaddNX, hz, alGet_alSet]
  · intro hz
    unfold User.del
    rw [h]
    simp [jsUndefStr, hid, hem, hrl, htk, Store.delRecord, Store.zaddNX, hz, alGet_alSet]
  · unfold User.del
    rw [h]
    simp [jsUndefStr, hid, hem, hrl, htk, Store.delRecord, zaddNX_records, alGet_alDel]
  · unfold User.del
    rw [h]
    simp [jsUndefStr, hid, hem, hrl, htk, Store.delRecord, zaddNX_idByEmail, alGet_alDel]
  · unfold User.del
    rw [h]
    simp [jsUndefStr, hid, hem, hrl, htk, Store.delRecord, zaddNX_roleById, alGet_alDel]
  · unfold User.del
    rw [h]
    simp [jsUndefStr, hid, hem, hrl, htk, Store.delRecord, zaddNX_idByToken, alGet_alDel]

/-- Witness for the amended C9: deleting the concrete user `u1` of `stW1`. -/
theorem C9_witness :
    User.get jwtW stW1 (GetOpts.byId "u1") = .ok recW1
    ∧ ((User.del jwtW 333 stW1 (GetOpts.byId "u1")).1
          = .ok { userDeleted := true, id := "u1" }
        ∧ (∃ arec, alGet (User.del jwtW 333 stW1 (GetOpts.byId "u1")).2.archived
              "john@doe.com" = some arec
            ∧ alGet arec "id" = some "u1")
        ∧ (alGet (User.del jwtW 333 stW1 (GetOpts.byId "u1")).2.archivedZ
            "john@doe.com").isSome = true
        ∧ (alGet stW1.archivedZ "john@doe.com" = none →
            alGet (User.del jwtW 333 stW1 (GetOpts.byId "u1")).2.archivedZ
              "john@doe.com" = some 333)
        ∧ alGet (User.del jwtW 333 stW1 (GetOpts.byId "u1")).2.records
            (userKey "admin" "u1") = none
        ∧ alGet (User.del jwtW 333 stW1 (GetOpts.byId "u1")).2.idByEmail
            "john@doe.com" = none
        ∧ alGet (User.del jwtW 333 stW1 (GetOpts.byId "u1")).2.roleById "u1" = none
        ∧ alGet (User.del jwtW 333 stW1 (GetOpts.byId "u1")).2.idByToken "tok1" = none) :=
  ⟨rfl, C9_del_amended jwtW 333 stW1 (GetOpts.byId "u1") recW1 "u1" "john@doe.com"
    "admin" "tok1" rfl (by decide) (by decide) (by decide) (by decide) (by decide)⟩

/-! ### Claim C10 -/

theorem pwTypesArr_length (opts : PwOpts) :
    (pwTypesArr opts).length = pwTypesCount opts := by
  unfold pwTypesArr pwTypesCount
  cases pwLower opts <;> cases pwUpper opts <;> cases pwNumber opts <;>
    cases pwSymbol opts <;> simp

theorem pwLength_pos (opts : PwOpts) : 0 < pwLength opts := by
  unfold pwLength jsOrNat
  cases h : opts.length with
  | none => simp
  | some n =>
      by_cases hn : n = 0
      · simp [hn]
      · simp [hn]
        omega

/-- Each of the `length` iterations appends one character per enabled class. -/
theorem genChars_length (randc : Nat → String → Char) (typesArr : List String) (n : Nat) :
    ∀ acc : List Char,
      ((List.range n).foldl (fun acc i => acc ++ typesArr.map (fun t => randc i t)) acc).length
        = acc.length + n * typesArr.length := by
  induction n with
  | zero => intro acc; simp
  | succ m ih =>
      intro acc
      rw [List.range_succ, List.foldl_append]
      simp only [List.foldl_cons, List.foldl_nil, List.length_append, List.length_map, ih]
      ring

/-- C10 (amended): `createPassword(opts)` returns a string of exactly
`opts.length` characters when that field is present and non-zero, and of 8
characters when it is absent or zero (`opts.length || 8`); the lower, upper
and number classes are always treated as enabled — even when `opts` sets them
to `false`, since `opts.lower || true` is always `true` — so the branch
returning the empty string when no class is enabled is unreachable. -/
theorem C10_createPassword_length (randc : Nat → String → Char)
    (shuffle : List Char → List Char)
    (hs : ∀ l, (shuffle l).length = l.length) (opts : PwOpts) :
    (createPassword randc shuffle opts).length = pwLength opts
    ∧ (∀ n, opts.length = some n → n ≠ 0 →
        (createPassword randc shuffle opts).length = n)
    ∧ (opts.length = none → (createPassword randc shuffle opts).length = 8)
    ∧ (opts.length = some 0 → (createPassword randc shuffle opts).length = 8)
    ∧ pwLower opts = true ∧ pwUpper opts = true ∧ pwNumber opts = true
    ∧ pwTypesCount opts ≠ 0
    ∧ createPassword randc shuffle opts
        = createPassword randc shuffle
            { opts with lower := some true, upper := some true, number := some true } := by
  have hl : pwLower opts = true := jsOrBool_true _
  have hu : pwUpper opts = true := jsOrBool_true _
  have hn : pwNumber opts = true := jsOrBool_true _
  have htc : pwTypesCount opts ≠ 0 := by
    unfold pwTypesCount
    rw [hl, hu, hn]
    simp
  have hk : 0 < (pwTypesArr opts).length := by
    rw [pwTypesArr_length]
    omega
  have hmain : (createPassword randc shuffle opts).length = pwLength opts := by
    unfold createPassword
    rw [if_neg htc]
    show (String.mk (shuffle _)).length = _
    rw [show ∀ l : List Char, (String.mk l).length = l.length from fun l => rfl]
    rw [hs, List.length_take, genChars_length]
    have hle : pwLength opts ≤ pwLength opts * (pwTypesArr opts).length :=
      Nat.le_mul_of_pos_right _ hk
    simp
    omega
  refine ⟨hmain, ?_, ?_, ?_, hl, hu, hn, htc, ?_⟩
  · intro n h hnz
    rw [hmain]
    unfold pwLength jsOrNat
    simp [h, hnz]
  · intro h
    rw [hmain]
    unfold pwLength jsOrNat
    simp [h]
  · intro h
    rw [hmain]
    unfold pwLength jsOrNat
    simp [h]
  · unfold createPassword
    have h1 : pwLength
        { opts with lower := some true, upper := some true, number := some true }
        = pwLength opts := rfl
    have h2 : pwTypesCount
        { opts with lower := some true, upper := some true, number := some true }
        = pwTypesCount opts := by
      unfold pwTypesCount pwLower pwUpper pwNumber pwSymbol
      simp [jsOrBool_true]
    have h3 : pwTypesArr
        { opts with lower := some true, upper := some true, number := some true }
        = pwTypesArr opts := by
      unfold pwTypesArr pwLower pwUpper pwNumber pwSymbol
      simp [jsOrBool_true]
    rw [h1, h2, h3]

/-- C10 counterexample: with `opts = {length: 0}`, `createPassword` returns an
8-character string, not a 0-character one — `opts.length || 8` treats the
present-but-zero length like an absent one. -/
theorem C10_length_zero_counterexample :
    (createPassword (fun _ _ => 'a') (fun l => l) { length := some 0 }).length = 8
    ∧ ¬ (createPassword (fun _ _ => 'a') (fun l => l) { length := some 0 }).length = 0 :=
  ⟨by decide, by decide⟩

/-- Witness for the amended C10: a 5-character password is produced even with
`lower: false`, and the no-classes branch is unreachable. -/
theorem C10_witness :
    (∀ l : List Char, ((fun l => l) l).length = l.length)
    ∧ (createPassword (fun _ _ => 'b') (fun l => l)
          { length := some 5, lower := some false }).length
        = pwLength { length := some 5, lower := some false }
    ∧ pwLower { length := some 5, lower := some false } = true
    ∧ pwTypesCount { length := some 5, lower := some false } ≠ 0 :=
  ⟨fun l => rfl,
   (C10_createPassword_length (fun _ _ => 'b') (fun l => l) (fun l => rfl)
      { length := some 5, lower := some false }).1,
   (C10_createPassword_length (fun _ _ => 'b') (fun l => l) (fun l => rfl)
      { length := some 5, lower := some false }).2.2.2.2.1,
   (C10_createPassword_length (fun _ _ => 'b') (fun l => l) (fun l => rfl)
      { length := some 5, lower := some false }).2.2.2.2.2.2.2.1⟩

end Fluxx
